import Mathlib

/-!
Verification development for the moegirl-mcp wikitext structural parser
(`src-ts/core/page_content_parser.ts`).

The parser is a single-pass, line-oriented state machine.  We embed it
shallowly: each TypeScript method becomes a Lean function operating on
`List Char` / `String` data.  JavaScript-specific semantics that matter are
modelled explicitly:

* `Array.prototype.push(currentSection)` stores a *reference*; the code later
  mutates `currentSection` after pushing it (and sometimes pushes the same
  object again).  We model the sections array as a list of finalized sections
  (`done`) plus the number of aliased occurrences (`curCopies`) of the one
  still-mutable object (`cur`); every occurrence shows the object's final
  value, exactly as in JavaScript.
* `Map` is insertion-ordered with in-place overwrite on `set`; modelled as an
  association list with `mapSet`.
* Regexes are unfolded by hand; comments give the original pattern.  `.`
  never matches a line terminator, `$` (no multiline flag) matches only at
  the very end of the string, `\s` is modelled for the ASCII whitespace
  characters (the inputs of interest contain no exotic Unicode whitespace).
* `content.split('\n')` of the empty string yields `[""]`.
-/

/-- ASCII part of the JavaScript `\s` class / `String.prototype.trim`. -/
def jsIsSpace (c : Char) : Bool :=
  c = ' ' || c = '\t' || c = '\n' || c = '\r' || c = '\x0b' || c = '\x0c'

/-- JavaScript `String.prototype.trim` (ASCII whitespace). -/
def jsTrim (s : String) : String :=
  String.mk (((s.toList.dropWhile jsIsSpace).reverse.dropWhile jsIsSpace).reverse)

/-- List prefix test (by decidable equality on `Char`). -/
def listStarts : List Char → List Char → Bool
  | [], _ => true
  | _ :: _, [] => false
  | p :: ps, c :: cs => p = c && listStarts ps cs

/-- Substring occurrence test, JavaScript `String.prototype.includes`. -/
def listHas (needle : List Char) : List Char → Bool
  | [] => listStarts needle []
  | c :: cs => listStarts needle (c :: cs) || listHas needle cs

/-- JavaScript `s.includes(sub)`. -/
def jsIncludes (s sub : String) : Bool :=
  listHas sub.toList s.toList

/-- JavaScript `s.startsWith(p)`. -/
def jsStarts (s p : String) : Bool :=
  listStarts p.toList s.toList

/-- ASCII lower-casing, the fragment of `String.prototype.toLowerCase`
exercised here. -/
def jsCharLower (c : Char) : Char :=
  if 'A' ≤ c && c ≤ 'Z' then Char.ofNat (c.toNat + 32) else c

/-- JavaScript `s.toLowerCase()` (ASCII fragment). -/
def jsToLower (s : String) : String :=
  String.mk (s.toList.map jsCharLower)

/-- JavaScript `content.split('\n')`: split at every newline, never empty. -/
def splitNlGo : List Char → List Char → List (List Char)
  | [], acc => [acc]
  | '\n' :: rest, acc => acc :: splitNlGo rest []
  | c :: rest, acc => splitNlGo rest (acc ++ [c])

/-- Line splitting as done by `parsePage` (`content.split('\n')`). -/
def jsSplitNewline (s : String) : List String :=
  (splitNlGo s.toList []).map String.mk

/-- JavaScript `Array.prototype.join(sep)`. -/
def jsJoin (sep : String) : List String → String
  | [] => ""
  | x :: rest => rest.foldl (fun acc y => acc ++ sep ++ y) x

/-- JavaScript `str.repeat(n)`. -/
def jsRepeat (s : String) (n : Nat) : String :=
  String.join (List.replicate n s)

/-- `PageSection` from `src-ts/types/index.ts`.  The TypeScript interface has
optional fields `title`, `level`, `templateName`; absent (`undefined`) values
are modelled by `""` and `0`, which are exactly the falsy values the code's
truthiness tests (`section.title &&`, `section.level &&`) distinguish. -/
structure PageSection where
  type : String
  title : String
  level : Nat
  templateName : String
  content : String
  startLine : Nat
  endLine : Nat
deriving Repr, DecidableEq

/-- `PageTemplate` from `src-ts/types/index.ts`; `parameters` is a `Map`,
modelled as an insertion-ordered association list. -/
structure PageTemplate where
  name : String
  fullText : String
  parameters : List (String × String)
  startLine : Nat
  endLine : Nat
deriving Repr, DecidableEq

/-- Entries of `PageStructure.headings`. -/
structure HeadingEntry where
  title : String
  level : Nat
  line : Nat
deriving Repr, DecidableEq

/-- `PageStructure` from `src-ts/types/index.ts`. -/
structure PageStructure where
  title : String
  sections : List PageSection
  templates : List PageTemplate
  headings : List HeadingEntry
  toc : String
deriving Repr, DecidableEq

/-- The heading regex `^(#{1,6})\s+(.+)$` applied to the trimmed line:
1 to 6 leading `#`, at least one whitespace, then a non-empty remainder
(the line contains no newline, so `.` poses no extra constraint; a run of
more than 6 `#` cannot match because the character after the shortened run
is still `#`).  Returns `(level, title)`. -/
def headingMatch (s : String) : Option (Nat × String) :=
  let cs := s.toList
  let hashes := cs.takeWhile (fun c => c = '#')
  let n := hashes.length
  if 1 ≤ n && n ≤ 6 then
    let rest := cs.drop n
    let sp := rest.takeWhile jsIsSpace
    let title := rest.drop sp.length
    if sp.length ≥ 1 && title ≠ [] then some (n, String.mk title) else none
  else none

/-- Primary name regex `^\{\{([^|\}]+)(?:\||\}\})` of `extractTemplateName`:
after the opening braces, a non-empty maximal run of characters other than
`|` and the closing brace, which must be followed by `|` or by two closing
braces (no backtracking can succeed otherwise, since the character after the
run is fixed). -/
def primaryNameMatch (line : String) : Option (List Char) :=
  match line.toList with
  | '{' :: '{' :: rest =>
    let name := rest.takeWhile (fun c => c ≠ '|' && c ≠ '}')
    if name = [] then none
    else
      match rest.drop name.length with
      | '|' :: _ => some name
      | '}' :: '}' :: _ => some name
      | _ => none
  | _ => none

/-- Secondary regex `^\{\{([^|}]+(?:\|[^|}]+)?)(?:\||\}\})` used by the
short-name heuristic: the capture optionally folds one pipe-delimited
argument into the name.  The optional group is tried first; if it cannot be
completed the regex falls back to the capture without it. -/
def secondaryNameMatch (line : String) : Option (List Char) :=
  match line.toList with
  | '{' :: '{' :: rest =>
    let run1 := rest.takeWhile (fun c => c ≠ '|' && c ≠ '}')
    if run1 = [] then none
    else
      let after1 := rest.drop run1.length
      let fallback : Option (List Char) :=
        match after1 with
        | '|' :: _ => some run1
        | '}' :: '}' :: _ => some run1
        | _ => none
      match after1 with
      | '|' :: rest2 =>
        let run2 := rest2.takeWhile (fun c => c ≠ '|' && c ≠ '}')
        if run2 = [] then fallback
        else
          match rest2.drop run2.length with
          | '|' :: _ => some (run1 ++ '|' :: run2)
          | '}' :: '}' :: _ => some (run1 ++ '|' :: run2)
          | _ => fallback
      | _ => fallback
  | _ => none

/-- `PageContentParser.extractTemplateName`: primary match, trimmed; if the
name has at most 3 characters and the line contains `|`, the secondary match
is consulted and used when its capture contains a `|`. -/
def extractTemplateName (line : String) : String :=
  match primaryNameMatch line with
  | none => ""
  | some name0 =>
    let templateName := jsTrim (String.mk name0)
    if templateName.toList.length ≤ 3 && jsIncludes line "|" then
      match secondaryNameMatch line with
      | some full =>
        if listHas ['|'] full then jsTrim (String.mk full) else templateName
      | none => templateName
    else templateName

/-- Brace scanning loop of `PageContentParser.isTemplateComplete`: `{{` adds
2, `}}` subtracts 2 (consuming both characters); when the counter first
returns to 0 at a `}}`, the template is complete exactly when no further
`{{` occurs in the remaining tail; the end of the input yields `false`. -/
def itcGo : List Char → Int → Bool
  | '{' :: '{' :: rest, n => itcGo rest (n + 2)
  | '}' :: '}' :: rest, n =>
    if n - 2 = 0 then !(listHas ['{', '{'] rest) else itcGo rest (n - 2)
  | _ :: rest, n => itcGo rest n
  | [], _ => false

/-- `PageContentParser.isTemplateComplete`. -/
def isTemplateComplete (content : String) : Bool :=
  itcGo content.toList 0

/-- The single-line balance loop of `isValidTemplateStart` (lines 242-251):
same `{{` / `}}` pairing, returning the final counter. -/
def lineBraceBalance : List Char → Int → Int
  | '{' :: '{' :: rest, n => lineBraceBalance rest (n + 2)
  | '}' :: '}' :: rest, n => lineBraceBalance rest (n - 2)
  | _ :: rest, n => lineBraceBalance rest n
  | [], n => n

/-- `PageContentParser.isValidTemplateStart` (applied to the trimmed line):
must start with `{{` but not `{{{`, must have an extractable name, and if the
line contains `}}` its braces must balance to 0. -/
def isValidTemplateStart (line : String) : Bool :=
  if !(jsStarts line "\x7b\x7b") || jsStarts line "\x7b\x7b\x7b" then false
  else if extractTemplateName line = "" then false
  else if jsIncludes line "\x7d\x7d" then lineBraceBalance line.toList 0 = 0
  else true

/-- `templateText.replace(/^\{\{|\}\}$/g, '')`: remove one leading `{{` and
one trailing `}}` (the two matches are disjoint; with the global flag each
anchor can fire at most once). -/
def stripOuterBraces (s : String) : String :=
  let cs := s.toList
  let cs1 := if listStarts ['{', '{'] cs then cs.drop 2 else cs
  let cs2 := if listStarts ['}', '}'] cs1.reverse then cs1.dropLast.dropLast else cs1
  String.mk cs2

/-- Loop of `PageContentParser.splitTemplateParams`: split at `|` only when
both the brace depth and the bracket depth are exactly 0.  Note the source
appends only the *first* character of a `{{` or `}}` pair to the current
argument (`current += char; i++` skips the second). -/
def splitGo : List Char → Int → Int → List Char → List (List Char) → List (List Char)
  | [], _, _, current, parts => if current ≠ [] then parts ++ [current] else parts
  | '{' :: '{' :: rest, br, bk, current, parts =>
    splitGo rest (br + 2) bk (current ++ ['{']) parts
  | '}' :: '}' :: rest, br, bk, current, parts =>
    splitGo rest (br - 2) bk (current ++ ['}']) parts
  | '[' :: rest, br, bk, current, parts =>
    splitGo rest br (bk + 1) (current ++ ['[']) parts
  | ']' :: rest, br, bk, current, parts =>
    splitGo rest br (bk - 1) (current ++ [']']) parts
  | '|' :: rest, br, bk, current, parts =>
    if br = 0 && bk = 0 then splitGo rest br bk [] (parts ++ [current])
    else splitGo rest br bk (current ++ ['|']) parts
  | c :: rest, br, bk, current, parts => splitGo rest br bk (current ++ [c]) parts

/-- `PageContentParser.splitTemplateParams`. -/
def splitTemplateParams (content : String) : List String :=
  (splitGo content.toList 0 0 [] []).map String.mk

/-- The argument regex `^([^=]+)=(.+)$`: a non-empty run without `=`, the
first `=`, then a non-empty remainder in which `.` must match every
character, so the value may not contain a line terminator. -/
def kvMatch (part : String) : Option (String × String) :=
  let cs := part.toList
  let key := cs.takeWhile (fun c => c ≠ '=')
  match cs.drop key.length with
  | '=' :: v =>
    if key ≠ [] && v ≠ [] && v.all (fun c => c ≠ '\n' && c ≠ '\r') then
      some (String.mk key, String.mk v)
    else none
  | _ => none

/-- JavaScript `Map.prototype.set`: overwrite in place when the key exists,
otherwise append (insertion order preserved). -/
def mapSet (m : List (String × String)) (k v : String) : List (String × String) :=
  if m.any (fun p => p.1 = k) then
    m.map (fun p => if p.1 = k then (k, v) else p)
  else m ++ [(k, v)]

/-- Body of the `parts.forEach((part, index) => ...)` callback of
`extractTemplateParameters`: a `key=value` part is stored trimmed under its
key, any other part with non-whitespace content is stored under
`index + 1` rendered as a string — `index` being the position in the *full*
parts list. -/
def forEachArg (m : List (String × String)) (p : Nat × String) :
    List (String × String) :=
  match kvMatch p.2 with
  | some kv => mapSet m (jsTrim kv.1) (jsTrim kv.2)
  | none => if jsTrim p.2 ≠ "" then mapSet m (toString (p.1 + 1)) (jsTrim p.2) else m

/-- `PageContentParser.extractTemplateParameters`: strip the outer braces,
split, then classify each part. -/
def extractTemplateParameters (templateText : String) : List (String × String) :=
  ((splitTemplateParams (stripOuterBraces templateText)).enum).foldl forEachArg []

/-- `PageContentParser.generateTOC`. -/
def generateTOC (headings : List HeadingEntry) : String :=
  if headings = [] then "无目录"
  else
    let header := "📋 页面目录\n" ++ jsRepeat "=" 20 ++ "\n\n"
    headings.foldl
      (fun acc h => acc ++ jsRepeat "  " (h.level - 1) ++ "• " ++ h.title ++ "\n")
      header

/-- One entry of `templateStack` in `parsePage`. -/
structure Frame where
  name : String
  startLine : Nat
  content : List String
deriving Repr, DecidableEq

/-- The mutable state of the `parsePage` loop.  The JavaScript `sections`
array is `done ++ List.replicate curCopies c` whenever `cur = some c`: the
code pushes `currentSection` without clearing it and keeps mutating it, so
every pushed occurrence aliases the same object and shows its latest value.
`stack` models `templateStack` with the top at the head. -/
structure ParseState where
  done : List PageSection
  cur : Option PageSection
  curCopies : Nat
  templates : List PageTemplate
  headings : List HeadingEntry
  stack : List Frame
deriving Repr, DecidableEq

/-- Heading branch of the loop (lines 29-51): close and finalize any open
section with `endLine = i - 1`, record the heading, open a heading section.
(`currentSection` is replaced, so its pushed aliases are finalized here.) -/
def stepHeading (st : ParseState) (i : Nat) (line : String) (level : Nat)
    (title : String) : ParseState :=
  { st with
    done := st.done ++
      (match st.cur with
       | some c => List.replicate (st.curCopies + 1) ({ c with endLine := i - 1 })
       | none => []),
    cur := some ⟨"heading", title, level, "", line, i, i⟩,
    curCopies := 0,
    headings := st.headings ++ [⟨title, level, i⟩] }

/-- Template-start branch (lines 53-68): close (push) any open non-template
section with `endLine = i - 1` — the code does *not* clear `currentSection`,
so the object stays current with one more alias in the array — then push a
new scan frame.  This branch fires regardless of whether a template scan is
already in progress. -/
def stepTemplateStart (st : ParseState) (i : Nat) (line : String)
    (trimmed : String) : ParseState :=
  let closed :=
    match st.cur with
    | some c =>
      if c.type ≠ "template" then
        { st with cur := some { c with endLine := i - 1 },
                  curCopies := st.curCopies + 1 }
      else st
    | none => st
  { closed with stack := ⟨extractTemplateName trimmed, i, [line]⟩ :: closed.stack }

/-- Template-content branch (lines 70-118): append the line to the top
frame; if the accumulated buffer is brace-complete, pop the frame, emit the
template, and place its section: promote it to `currentSection` when none is
open or a heading is open (finalizing the heading with `endLine = i - 1`),
otherwise merge the full text into the open section. -/
def stepTemplateLine (st : ParseState) (i : Nat) (line : String) (fr : Frame)
    (rest : List Frame) : ParseState :=
  let content1 := fr.content ++ [line]
  let fullContent := jsJoin "\n" content1
  if isTemplateComplete fullContent then
    let template : PageTemplate :=
      ⟨fr.name, fullContent, extractTemplateParameters fullContent, fr.startLine, i⟩
    let tSec : PageSection := ⟨"template", "", 0, fr.name, fullContent, fr.startLine, i⟩
    match st.cur with
    | none =>
      { st with templates := st.templates ++ [template], stack := rest,
                cur := some tSec, curCopies := 0 }
    | some c =>
      if c.type = "heading" then
        let closed : PageSection := { c with endLine := i - 1 }
        { st with templates := st.templates ++ [template], stack := rest,
                  done := st.done ++ List.replicate (st.curCopies + 1) closed,
                  cur := some tSec, curCopies := 0 }
      else
        let merged : PageSection :=
          { c with content := c.content ++ "\n" ++ fullContent, endLine := i }
        { st with templates := st.templates ++ [template], stack := rest,
                  cur := some merged }
  else { st with stack := ({ fr with content := content1 }) :: rest }

/-- Plain-content branch (lines 120-143): extend an open content section,
close an open heading and start a content section, start a content section
when nothing is open — and do nothing at all when the open section is a
template section (no branch of the source matches that case). -/
def stepPlain (st : ParseState) (i : Nat) (line : String) : ParseState :=
  match st.cur with
  | some c =>
    if c.type = "content" then
      let extended : PageSection :=
        { c with content := c.content ++ "\n" ++ line, endLine := i }
      { st with cur := some extended }
    else if c.type = "heading" then
      let closed : PageSection := { c with endLine := i - 1 }
      { st with done := st.done ++ List.replicate (st.curCopies + 1) closed,
                cur := some ⟨"content", "", 0, "", line, i, i⟩, curCopies := 0 }
    else st
  | none =>
    { st with cur := some ⟨"content", "", 0, "", line, i, i⟩, curCopies := 0 }

/-- One iteration of the `parsePage` loop body, in the source's branch
order: heading, template start, in-progress template, plain content. -/
def step (st : ParseState) (i : Nat) (line : String) : ParseState :=
  let trimmed := jsTrim line
  match headingMatch trimmed with
  | some lt => stepHeading st i line lt.1 lt.2
  | none =>
    if isValidTemplateStart trimmed then stepTemplateStart st i line trimmed
    else
      match st.stack with
      | fr :: rest => stepTemplateLine st i line fr rest
      | [] => stepPlain st i line

/-- Initial loop state of `parsePage`. -/
def initState : ParseState := ⟨[], none, 0, [], [], []⟩

/-- Final sections array (lines 146-150): a still-open section is closed
with `endLine = lines.length - 1` and pushed; all its aliased occurrences
show that final value. -/
def finalSections (st : ParseState) (numLines : Nat) : List PageSection :=
  match st.cur with
  | some c => st.done ++ List.replicate (st.curCopies + 1) { c with endLine := numLines - 1 }
  | none => st.done

/-- `PageContentParser.parsePage`. -/
def parsePage (title content : String) : PageStructure :=
  let lines := jsSplitNewline content
  let st := (List.enumFrom 0 lines).foldl (fun s p => step s p.1 p.2) initState
  ⟨title, finalSections st lines.length, st.templates, st.headings,
   generateTOC st.headings⟩

/-- `PageContentParser.findTemplatesByName`: case-insensitive substring
filter over template names. -/
def findTemplatesByName (structure1 : PageStructure) (templateName : String) :
    List PageTemplate :=
  structure1.templates.filter
    (fun t => jsIncludes (jsToLower t.name) (jsToLower templateName))

/-- The predicate of `getContentByTitle`'s `find`: a heading section with a
truthy (non-empty) title containing the query case-insensitively. -/
def sectionMatchesTitle (title : String) (s : PageSection) : Bool :=
  s.type = "heading" && s.title ≠ "" && jsIncludes (jsToLower s.title) (jsToLower title)

/-- The `break` condition of `getContentByTitle`'s collection loop: a
heading section with truthy level at most the matched heading's level. -/
def stopsCollection (headingSection s : PageSection) : Bool :=
  s.type = "heading" && s.level ≠ 0 && headingSection.level ≠ 0 &&
    s.level ≤ headingSection.level

/-- `PageContentParser.getContentByTitle`: find the first matching heading
section, collect the contents of the following sections until one of equal
or higher level, join with blank lines. -/
def getContentByTitle (structure1 : PageStructure) (title : String) : String :=
  match structure1.sections.findIdx? (sectionMatchesTitle title) with
  | none => ""
  | some idx =>
    let headingSection := (structure1.sections.drop idx).headD
      ⟨"", "", 0, "", "", 0, 0⟩
    let rest := structure1.sections.drop (idx + 1)
    let collected := (rest.takeWhile (fun s => !stopsCollection headingSection s)).map
      (fun s => s.content)
    jsJoin "\n\n" collected

/-- The partition property claimed by the specification for
`PageStructure.sections`: pairwise ordered/non-overlapping ranges that
jointly cover every line index below `numLines`. -/
def claimedPartition (secs : List PageSection) (numLines : Nat) : Prop :=
  secs.Pairwise (fun s1 s2 => s1.endLine < s2.startLine ∨ s1.endLine + 1 = s2.startLine) ∧
  ∀ k, k < numLines → ∃ s ∈ secs, s.startLine ≤ k ∧ k ≤ s.endLine

/-- `contigFromTo a ss b`: the sections `ss` tile the interval `[a, b - 1]`
exactly, in order, each with a non-empty range. -/
def contigFromTo : Nat → List PageSection → Nat → Prop
  | a, [], b => a = b
  | a, s :: rest, b =>
    s.startLine = a ∧ a ≤ s.endLine ∧ contigFromTo (s.endLine + 1) rest b

theorem contig_le : ∀ {ss : List PageSection} {a b : Nat},
    contigFromTo a ss b → a ≤ b := by
  intro ss
  induction ss with
  | nil => intro a b h; exact le_of_eq h
  | cons s rest ih =>
    intro a b h
    obtain ⟨hs, hle, hrest⟩ := h
    exact le_trans (le_trans hle (Nat.le_succ _)) (ih hrest)

theorem contig_bounds : ∀ {ss : List PageSection} {a b : Nat},
    contigFromTo a ss b → ∀ s ∈ ss, a ≤ s.startLine ∧ s.endLine < b := by
  intro ss
  induction ss with
  | nil => intro a b _ s hs; cases hs
  | cons s rest ih =>
    intro a b h t ht
    obtain ⟨hs, hle, hrest⟩ := h
    rcases List.mem_cons.mp ht with h1 | h1
    · subst h1
      refine ⟨le_of_eq hs.symm, ?_⟩
      exact lt_of_lt_of_le (Nat.lt_succ_self _) (contig_le hrest)
    · obtain ⟨h2, h3⟩ := ih hrest t h1
      refine ⟨?_, h3⟩
      omega

theorem contig_pairwise : ∀ {ss : List PageSection} {a b : Nat},
    contigFromTo a ss b →
    ss.Pairwise (fun s1 s2 => s1.endLine < s2.startLine ∨ s1.endLine + 1 = s2.startLine) := by
  intro ss
  induction ss with
  | nil => intro a b _; exact List.Pairwise.nil
  | cons s rest ih =>
    intro a b h
    obtain ⟨_, _, hrest⟩ := h
    refine List.Pairwise.cons ?_ (ih hrest)
    intro t ht
    exact Or.inl (lt_of_lt_of_le (Nat.lt_succ_self _) ((contig_bounds hrest t ht).1))

theorem contig_cover : ∀ {ss : List PageSection} {a b : Nat},
    contigFromTo a ss b → ∀ k, a ≤ k → k < b →
    ∃ s ∈ ss, s.startLine ≤ k ∧ k ≤ s.endLine := by
  intro ss
  induction ss with
  | nil =>
    intro a b h k hak hkb
    simp only [contigFromTo] at h
    omega
  | cons s rest ih =>
    intro a b h k hak hkb
    obtain ⟨hs, _, hrest⟩ := h
    by_cases hk : k ≤ s.endLine
    · exact ⟨s, List.mem_cons_self .., hs ▸ hak, hk⟩
    · obtain ⟨t, ht, h1, h2⟩ := ih hrest k (by omega) hkb
      exact ⟨t, List.mem_cons_of_mem _ ht, h1, h2⟩

theorem contig_append : ∀ {ss : List PageSection} {a b : Nat} {s : PageSection},
    contigFromTo a ss b → s.startLine = b → b ≤ s.endLine →
    contigFromTo a (ss ++ [s]) (s.endLine + 1) := by
  intro ss
  induction ss with
  | nil =>
    intro a b s h hb hle
    simp only [contigFromTo] at h
    simp only [List.nil_append, contigFromTo]
    exact ⟨by omega, by omega, trivial⟩
  | cons t rest ih =>
    intro a b s h hb hle
    obtain ⟨ht, htle, hrest⟩ := h
    exact ⟨ht, htle, ih hrest hb hle⟩

theorem step_eq_heading {st : ParseState} {i : Nat} {line : String}
    {lt : Nat × String} (h : headingMatch (jsTrim line) = some lt) :
    step st i line = stepHeading st i line lt.1 lt.2 := by
  simp only [step, h]

theorem step_eq_tplStart {st : ParseState} {i : Nat} {line : String}
    (h1 : headingMatch (jsTrim line) = none)
    (h2 : isValidTemplateStart (jsTrim line) = true) :
    step st i line = stepTemplateStart st i line (jsTrim line) := by
  simp only [step, h1, h2, if_true]

theorem step_eq_tplLine {st : ParseState} {i : Nat} {line : String}
    {fr : Frame} {rest : List Frame}
    (h1 : headingMatch (jsTrim line) = none)
    (h2 : isValidTemplateStart (jsTrim line) = false)
    (h3 : st.stack = fr :: rest) :
    step st i line = stepTemplateLine st i line fr rest := by
  simp only [step, h1, h2, h3, Bool.false_eq_true, if_false]

theorem step_eq_plain {st : ParseState} {i : Nat} {line : String}
    (h1 : headingMatch (jsTrim line) = none)
    (h2 : isValidTemplateStart (jsTrim line) = false)
    (h3 : st.stack = []) :
    step st i line = stepPlain st i line := by
  simp only [step, h1, h2, h3, Bool.false_eq_true, if_false]

/-- Loop invariant for inputs in which no line is recognized as a template
start: the template stack stays empty, no pushed section stays aliased, and
the finalized sections tile `[0, cur.startLine - 1]` while the open section
started before the current line. -/
def NoTplInv (k : Nat) (st : ParseState) : Prop :=
  st.stack = [] ∧ st.curCopies = 0 ∧
  ((st.done = [] ∧ st.cur = none ∧ k = 0) ∨
   (∃ c, st.cur = some c ∧ (c.type = "content" ∨ c.type = "heading") ∧
     contigFromTo 0 st.done c.startLine ∧ c.startLine < k))

theorem noTpl_step (st : ParseState) (k : Nat) (line : String)
    (hInv : NoTplInv k st) (hv : isValidTemplateStart (jsTrim line) = false) :
    NoTplInv (k + 1) (step st k line) := by
  obtain ⟨hstack, hcopies, hrest⟩ := hInv
  cases hm : headingMatch (jsTrim line) with
  | some lt =>
    rw [step_eq_heading hm]
    unfold stepHeading
    rcases hrest with ⟨hdone, hcur, hk⟩ | ⟨c, hcur, htype, hcontig, hlt⟩
    · subst hk
      refine ⟨hstack, rfl, Or.inr ⟨_, rfl, Or.inr rfl, ?_, Nat.zero_lt_one⟩⟩
      simp [hcur, hdone, contigFromTo]
    · refine ⟨hstack, rfl, Or.inr ⟨_, rfl, Or.inr rfl, ?_, Nat.lt_succ_self _⟩⟩
      simp only [hcur, hcopies, Nat.zero_add, List.replicate_one]
      have happ := contig_append (s := { c with endLine := k - 1 }) hcontig rfl
        (show c.startLine ≤ k - 1 by omega)
      have happ2 : contigFromTo 0 (st.done ++ [{ c with endLine := k - 1 }])
        (k - 1 + 1) := happ
      have hk1 : k - 1 + 1 = k := by omega
      rw [hk1] at happ2
      exact happ2
  | none =>
    rw [step_eq_plain hm hv hstack]
    unfold stepPlain
    rcases hrest with ⟨hdone, hcur, hk⟩ | ⟨c, hcur, htype, hcontig, hlt⟩
    · subst hk
      simp only [hcur]
      refine ⟨hstack, rfl, Or.inr ⟨_, rfl, Or.inl rfl, ?_, Nat.zero_lt_one⟩⟩
      simp [hdone, contigFromTo]
    · simp only [hcur]
      rcases htype with htype | htype
      · rw [if_pos htype]
        exact ⟨hstack, hcopies,
          Or.inr ⟨_, rfl, Or.inl htype, hcontig,
            (show c.startLine < k + 1 by omega)⟩⟩
      · rw [if_neg (by rw [htype]; decide), if_pos htype]
        refine ⟨hstack, rfl, Or.inr ⟨_, rfl, Or.inl rfl, ?_, Nat.lt_succ_self _⟩⟩
        simp only [hcopies, Nat.zero_add, List.replicate_one]
        have happ := contig_append (s := { c with endLine := k - 1 }) hcontig rfl
          (show c.startLine ≤ k - 1 by omega)
        have happ2 : contigFromTo 0 (st.done ++ [{ c with endLine := k - 1 }])
          (k - 1 + 1) := happ
        have hk1 : k - 1 + 1 = k := by omega
        rw [hk1] at happ2
        exact happ2

theorem noTpl_fold : ∀ (ls : List String) (k : Nat) (st : ParseState),
    NoTplInv k st →
    (∀ l ∈ ls, isValidTemplateStart (jsTrim l) = false) →
    NoTplInv (k + ls.length)
      ((List.enumFrom k ls).foldl (fun s p => step s p.1 p.2) st) := by
  intro ls
  induction ls with
  | nil => intro k st h _; simpa using h
  | cons l ls ih =>
    intro k st h hall
    rw [List.enumFrom_cons, List.foldl_cons]
    have h1 := noTpl_step st k l h (hall l (List.mem_cons_self ..))
    have h2 := ih (k + 1) _ h1 (fun x hx => hall x (List.mem_cons_of_mem _ hx))
    have hlen : k + (l :: ls).length = k + 1 + ls.length := by
      simp [List.length_cons]; omega
    rw [hlen]
    exact h2

instance decidableClaimedPartition (secs : List PageSection) (n : Nat) :
    Decidable (claimedPartition secs n) := by
  unfold claimedPartition
  infer_instance

/-- Claim C1, counterexample: on the single-line input consisting of one
complete template invocation, the template-start line pushes a scan frame
and is never itself checked for completion, so `parsePage` returns an empty
`sections` list which fails to cover line 0. -/
theorem c1_claim_counterexample :
    ¬ claimedPartition (parsePage "" "\x7b\x7bT\x7d\x7d").sections
      (jsSplitNewline "\x7b\x7bT\x7d\x7d").length := by
  decide

/-- Claim C1, amended: when no line of the input is recognized as a template
start, the sections returned by `parsePage` are pairwise non-overlapping
(ordered, `s1.endLine < s2.startLine` or contiguous) and jointly cover every
line index of the input. -/
theorem c1_partition_no_template (title content : String)
    (h : ∀ l ∈ jsSplitNewline content, isValidTemplateStart (jsTrim l) = false) :
    claimedPartition (parsePage title content).sections
      (jsSplitNewline content).length := by
  have hInv := noTpl_fold (jsSplitNewline content) 0 initState
    ⟨rfl, rfl, Or.inl ⟨rfl, rfl, rfl⟩⟩ h
  rw [Nat.zero_add] at hInv
  obtain ⟨hstack, hcopies, hrest⟩ := hInv
  simp only [parsePage]
  rcases hrest with ⟨hdone, hcur, hk⟩ | ⟨c, hcur, htype, hcontig, hlt⟩
  · unfold finalSections
    simp only [hcur, hdone]
    exact ⟨List.Pairwise.nil, fun k hk2 => absurd hk2 (by omega)⟩
  · unfold finalSections
    simp only [hcur, hcopies, Nat.zero_add, List.replicate_one]
    have hn1 : c.startLine ≤ (jsSplitNewline content).length - 1 := by omega
    have happ := contig_append
      (s := { c with endLine := (jsSplitNewline content).length - 1 }) hcontig rfl hn1
    have happ2 : contigFromTo 0
        (((List.enumFrom 0 (jsSplitNewline content)).foldl
          (fun s p => step s p.1 p.2) initState).done ++
          [{ c with endLine := (jsSplitNewline content).length - 1 }])
        ((jsSplitNewline content).length - 1 + 1) := happ
    have hk1 : (jsSplitNewline content).length - 1 + 1 =
        (jsSplitNewline content).length := by omega
    rw [hk1] at happ2
    exact ⟨contig_pairwise happ2,
      fun k hk2 => contig_cover happ2 k (Nat.zero_le _) hk2⟩

/-- Witness for the amended C1 theorem at a concrete template-free input. -/
theorem c1_partition_no_template_witness :
    (∀ l ∈ jsSplitNewline "# A\nhello", isValidTemplateStart (jsTrim l) = false) ∧
    claimedPartition (parsePage "pg" "# A\nhello").sections
      (jsSplitNewline "# A\nhello").length :=
  ⟨by decide, c1_partition_no_template "pg" "# A\nhello" (by decide)⟩

/-- Claim C2, counterexample: the single-line input of Scenario B yields
*no* template at all — the template-start line only pushes a scan frame
(`continue`), the completion check runs on later lines only, and there is no
later line. -/
theorem c2_scenarioB_counterexample :
    (parsePage "" "\x7b\x7bInfobox|name=Foo|2=bar\x7d\x7d").templates = [] := by
  decide

/-- Claim C2, amended: spreading the same invocation over two lines makes it
parse as one Template named `Infobox`; its parameter map holds `name=Foo`
and `2=bar` *and additionally* stores the template name itself under the
positional key `1`, because the split interior starts with the name part. -/
theorem c2_scenarioB_amended :
    (parsePage "" "\x7b\x7bInfobox|\n|name=Foo|2=bar\x7d\x7d").templates =
      [⟨"Infobox", "\x7b\x7bInfobox|\n|name=Foo|2=bar\x7d\x7d",
        [("1", "Infobox"), ("name", "Foo"), ("2", "bar")], 0, 1⟩] := by
  decide

/-- Claim C3, counterexample: on Scenario C's exact input the first line is
`\x7b\x7bQuote`, whose name regex requires a following `|` or closing braces, so no
template scan ever starts and `parsePage` emits no template. -/
theorem c3_scenarioC_counterexample :
    (parsePage "" "\x7b\x7bQuote\n|text=Hello\n\x7d\x7d").templates = [] := by
  decide

/-- Claim C3, amended: the brace matcher itself is complete only once all
three lines are buffered, and with the first line changed to `\x7b\x7bQuote|` (so
that a name is extractable) the parser emits one template spanning lines 0
through 2. -/
theorem c3_scenarioC_amended :
    isTemplateComplete "\x7b\x7bQuote" = false ∧
    isTemplateComplete "\x7b\x7bQuote\n|text=Hello" = false ∧
    isTemplateComplete "\x7b\x7bQuote\n|text=Hello\n\x7d\x7d" = true ∧
    (parsePage "" "\x7b\x7bQuote|\n|text=Hello\n\x7d\x7d").templates.map
      (fun t => (t.name, t.startLine, t.endLine)) = [("Quote", 0, 2)] := by
  decide

/-- Claim C4, counterexample: the heading pattern of the code is `#{1,6}`,
not `== ... ==`, so Scenario A's input produces no headings at all and the
content lookup for `A` returns the empty string. -/
theorem c4_scenarioA_counterexample :
    (parsePage "" "== A ==\ntext1\n=== B ===\ntext2\n== C ==\ntext3").headings
        = [] ∧
    getContentByTitle
      (parsePage "" "== A ==\ntext1\n=== B ===\ntext2\n== C ==\ntext3") "A"
        = "" := by
  decide

/-- Claim C4, amended: with `#`-style heading markers the scenario behaves
as claimed — headings `A` (level 2, line 0), `B` (level 3, line 2), `C`
(level 2, line 4), and the content under `A` includes the nested level-3
subsection `B` and stops before the level-2 heading `C` (sections are joined
by blank lines). -/
theorem c4_scenarioA_amended :
    (parsePage "" "## A\ntext1\n### B\ntext2\n## C\ntext3").headings =
      [⟨"A", 2, 0⟩, ⟨"B", 3, 2⟩, ⟨"C", 2, 4⟩] ∧
    getContentByTitle (parsePage "" "## A\ntext1\n### B\ntext2\n## C\ntext3") "A"
      = "text1\n\n### B\n\ntext2" := by
  decide

/-- Claim C9, counterexample: `"".split('\n')` is `[""]`, so the loop runs
once over an empty line and opens a content section; `sections` is not
empty. -/
theorem c9_empty_input_counterexample :
    (parsePage "" "").sections ≠ [] := by
  decide

/-- Claim C9, amended: on empty input `templates`, `headings` are empty and
`toc` is the non-empty "no table of contents" sentinel, but `sections`
holds exactly one empty content section spanning line 0. -/
theorem c9_empty_input_amended :
    (parsePage "" "").sections = [⟨"content", "", 0, "", "", 0, 0⟩] ∧
    (parsePage "" "").templates = [] ∧
    (parsePage "" "").headings = [] ∧
    (parsePage "" "").toc = "无目录" ∧
    (parsePage "" "").toc ≠ "" := by
  decide

/-- Claim C5, counterexample: the template-start branch has no
`templateStack.length === 0` guard.  After line 0 opens a scan for `Aaaa`,
line 1 (`\x7b\x7bBbbb\x7d\x7d`) is *not* appended to the in-progress buffer: it pushes a
second frame, and the parse of the whole input emits only the inner `Bbbb`
template spanning lines 1-2 (the outer scan is discarded at end of input)
instead of one `Aaaa` template spanning lines 0-2. -/
theorem c5_transition_counterexample :
    (step initState 0 "\x7b\x7bAaaa|").stack = [⟨"Aaaa", 0, ["\x7b\x7bAaaa|"]⟩] ∧
    (step (step initState 0 "\x7b\x7bAaaa|") 1 "\x7b\x7bBbbb\x7d\x7d").stack =
      [⟨"Bbbb", 1, ["\x7b\x7bBbbb\x7d\x7d"]⟩, ⟨"Aaaa", 0, ["\x7b\x7bAaaa|"]⟩] ∧
    (parsePage "" "\x7b\x7bAaaa|\n\x7b\x7bBbbb\x7d\x7d\n\x7d\x7d").templates.map
      (fun t => (t.name, t.startLine, t.endLine)) = [("Bbbb", 1, 2)] := by
  decide

/-- Claim C5, amended: during an in-progress template scan, a non-heading
line behaves as follows — a line recognized as a template start *always*
pushes a fresh scan frame (even though a template is already open), and any
other line is appended to the newest frame's buffer and checked with the
brace matcher, finalizing the template on completion. -/
theorem c5_transition_amended (st : ParseState) (i : Nat) (line : String)
    (fr : Frame) (rest : List Frame)
    (hstack : st.stack = fr :: rest)
    (hhead : headingMatch (jsTrim line) = none) :
    (isValidTemplateStart (jsTrim line) = true →
      (step st i line).stack =
        ⟨extractTemplateName (jsTrim line), i, [line]⟩ :: fr :: rest) ∧
    (isValidTemplateStart (jsTrim line) = false →
      isTemplateComplete (jsJoin "\n" (fr.content ++ [line])) = false →
      (step st i line).stack =
        ({ fr with content := fr.content ++ [line] }) :: rest) ∧
    (isValidTemplateStart (jsTrim line) = false →
      isTemplateComplete (jsJoin "\n" (fr.content ++ [line])) = true →
      (step st i line).stack = rest ∧
      (step st i line).templates = st.templates ++
        [⟨fr.name, jsJoin "\n" (fr.content ++ [line]),
          extractTemplateParameters (jsJoin "\n" (fr.content ++ [line])),
          fr.startLine, i⟩]) := by
  refine ⟨?_, ?_, ?_⟩
  · intro hv
    rw [step_eq_tplStart hhead hv, ← hstack]
    cases hcur : st.cur with
    | none => simp [stepTemplateStart, hcur]
    | some c =>
      by_cases h : c.type = "template"
      · simp [stepTemplateStart, hcur, h]
      · simp [stepTemplateStart, hcur, h]
  · intro hv hc
    rw [step_eq_tplLine hhead hv hstack]
    simp only [stepTemplateLine, hc, Bool.false_eq_true, if_false]
  · intro hv hc
    rw [step_eq_tplLine hhead hv hstack]
    cases hcur : st.cur with
    | none => simp [stepTemplateLine, hc, hcur]
    | some c =>
      by_cases h : c.type = "heading"
      · simp [stepTemplateLine, hc, hcur, h]
      · simp [stepTemplateLine, hc, hcur, h]

/-- Witness for the amended C5 theorem: with a scan for `Aaaa` already in
progress, the template-start line `\x7b\x7bBbbb\x7d\x7d` pushes a second frame on top of
the existing one. -/
theorem c5_transition_amended_witness :
    (step ⟨[], none, 0, [], [], [⟨"Aaaa", 0, ["\x7b\x7bAaaa|"]⟩]⟩ 1
        "\x7b\x7bBbbb\x7d\x7d").stack =
      ⟨"Bbbb", 1, ["\x7b\x7bBbbb\x7d\x7d"]⟩ :: ⟨"Aaaa", 0, ["\x7b\x7bAaaa|"]⟩ :: [] :=
  (c5_transition_amended ⟨[], none, 0, [], [], [⟨"Aaaa", 0, ["\x7b\x7bAaaa|"]⟩]⟩ 1
    "\x7b\x7bBbbb\x7d\x7d" ⟨"Aaaa", 0, ["\x7b\x7bAaaa|"]⟩ [] rfl (by decide)).1
    (by decide)

/-- Modelled from the spec (§4.5), amended per the code: classification of
one split argument.  A `key=value` argument is stored as trimmed key/value;
any other argument with non-whitespace content is stored under the string
rendering of its 1-based index *in the full split-argument list*;
whitespace-only arguments are dropped. -/
def classifyArg (idx : Nat) (arg : String) : Option (String × String) :=
  match kvMatch arg with
  | some kv => some (jsTrim kv.1, jsTrim kv.2)
  | none => if jsTrim arg = "" then none else some (toString (idx + 1), jsTrim arg)

/-- Modelled from the spec (§4.5), amended per the code: the parameter map
is the insertion-ordered association list built from the classified
arguments, later inserts with an existing key overwriting in place. -/
def paramsSpecAmended (parts : List String) : List (String × String) :=
  (parts.enum.filterMap (fun p => classifyArg p.1 p.2)).foldl
    (fun m kv => mapSet m kv.1 kv.2) []

theorem foldl_forEachArg_eq :
    ∀ (ps : List (Nat × String)) (acc : List (String × String)),
    ps.foldl forEachArg acc =
      (ps.filterMap (fun p => classifyArg p.1 p.2)).foldl
        (fun m kv => mapSet m kv.1 kv.2) acc := by
  intro ps
  induction ps with
  | nil => intro acc; rfl
  | cons p ps ih =>
    intro acc
    rw [List.foldl_cons, List.filterMap_cons]
    cases hkv : kvMatch p.2 with
    | some kv =>
      simp only [classifyArg, hkv]
      rw [List.foldl_cons]
      have harg : forEachArg acc p = mapSet acc (jsTrim kv.1) (jsTrim kv.2) := by
        unfold forEachArg
        rw [hkv]
      rw [harg]
      exact ih _
    | none =>
      by_cases ht : jsTrim p.2 = ""
      · simp only [classifyArg, hkv, ht, if_pos rfl]
        have harg : forEachArg acc p = acc := by
          unfold forEachArg
          rw [hkv]
          simp [ht]
        rw [harg]
        exact ih _
      · simp only [classifyArg, hkv, if_neg ht]
        rw [List.foldl_cons]
        have harg : forEachArg acc p = mapSet acc (toString (p.1 + 1)) (jsTrim p.2) := by
          unfold forEachArg
          rw [hkv]
          simp [ht]
        rw [harg]
        exact ih _

theorem extractTemplateParameters_eq_spec (s : String) :
    extractTemplateParameters s =
      paramsSpecAmended (splitTemplateParams (stripOuterBraces s)) := by
  unfold extractTemplateParameters paramsSpecAmended
  exact foldl_forEachArg_eq _ []

/-- Invariant of the parse loop: every emitted template's full text passed
the brace matcher at the moment of emission, and its parameter map was
computed from that very text. -/
def TemplatesOK (st : ParseState) : Prop :=
  ∀ t ∈ st.templates, isTemplateComplete t.fullText = true ∧
    t.parameters = extractTemplateParameters t.fullText

theorem templatesOK_step (st : ParseState) (i : Nat) (line : String)
    (h : TemplatesOK st) : TemplatesOK (step st i line) := by
  cases hm : headingMatch (jsTrim line) with
  | some lt =>
    rw [step_eq_heading hm]
    intro t ht
    exact h t ht
  | none =>
    cases hv : isValidTemplateStart (jsTrim line) with
    | true =>
      rw [step_eq_tplStart hm hv]
      intro t ht
      apply h t
      cases hcur : st.cur with
      | none => simpa [stepTemplateStart, hcur] using ht
      | some c =>
        by_cases hc : c.type = "template"
        · simpa [stepTemplateStart, hcur, hc] using ht
        · simpa [stepTemplateStart, hcur, hc] using ht
    | false =>
      cases hstk : st.stack with
      | nil =>
        rw [step_eq_plain hm hv hstk]
        intro t ht
        apply h t
        cases hcur : st.cur with
        | none => simpa [stepPlain, hcur] using ht
        | some c =>
          by_cases h1 : c.type = "content"
          · simpa [stepPlain, hcur, h1] using ht
          · by_cases h2 : c.type = "heading"
            · simpa [stepPlain, hcur, h1, h2] using ht
            · simpa [stepPlain, hcur, h1, h2] using ht
      | cons fr rest =>
        rw [step_eq_tplLine hm hv hstk]
        intro t ht
        cases hc : isTemplateComplete (jsJoin "\n" (fr.content ++ [line])) with
        | false =>
          apply h t
          simpa [stepTemplateLine, hc] using ht
        | true =>
          have hmem : t ∈ st.templates ++
              [⟨fr.name, jsJoin "\n" (fr.content ++ [line]),
                extractTemplateParameters (jsJoin "\n" (fr.content ++ [line])),
                fr.startLine, i⟩] := by
            cases hcur : st.cur with
            | none => simpa [stepTemplateLine, hc, hcur] using ht
            | some c =>
              by_cases h1 : c.type = "heading"
              · simpa [stepTemplateLine, hc, hcur, h1] using ht
              · simpa [stepTemplateLine, hc, hcur, h1] using ht
          rcases List.mem_append.mp hmem with h1 | h1
          · exact h t h1
          · rw [List.mem_singleton] at h1
            subst h1
            exact ⟨hc, rfl⟩

theorem templatesOK_fold : ∀ (ps : List (Nat × String)) (st : ParseState),
    TemplatesOK st →
    TemplatesOK (ps.foldl (fun s p => step s p.1 p.2) st) := by
  intro ps
  induction ps with
  | nil => intro st h; exact h
  | cons p ps ih =>
    intro st h
    rw [List.foldl_cons]
    exact ih _ (templatesOK_step st p.1 p.2 h)

theorem parsePage_templatesOK (title content : String) :
    ∀ t ∈ (parsePage title content).templates,
      isTemplateComplete t.fullText = true ∧
      t.parameters = extractTemplateParameters t.fullText := by
  intro t ht
  exact templatesOK_fold (List.enumFrom 0 (jsSplitNewline content)) initState
    (fun t ht => absurd ht (List.not_mem_nil t)) t ht

/-- Claim C6, counterexample: in `\x7b\x7bTmpl|a=b|c\n\x7d\x7d` the split arguments are
`Tmpl`, `a=b`, `c`.  The claim's numbering ("order of appearance among
arguments without an explicit key") would store `c` under `"2"`, but the
code keys positional arguments by their index in the *full* argument list,
so `c` lands under `"3"` and no key `"2"` exists. -/
theorem c6_parameters_counterexample :
    (parsePage "" "\x7b\x7bTmpl|a=b|c\n\x7d\x7d").templates.map
      (fun t => t.parameters) = [[("1", "Tmpl"), ("a", "b"), ("3", "c")]] ∧
    (∀ t ∈ (parsePage "" "\x7b\x7bTmpl|a=b|c\n\x7d\x7d").templates,
      ∀ kv ∈ t.parameters, kv.1 ≠ "2") := by
  decide

/-- Claim C6, amended: for every template finalized by the parser, the
parameter map equals the spec-style rebuild in which a `key=value` argument
is stored under its trimmed explicit key, and every other argument with
non-whitespace content is stored under its 1-based index in the *full*
split-argument list (not merely among the positional ones); whitespace-only
arguments are dropped, and a later insert on an existing key overwrites in
place. -/
theorem c6_parameters_amended (title content : String) (t : PageTemplate)
    (ht : t ∈ (parsePage title content).templates) :
    t.parameters =
      paramsSpecAmended (splitTemplateParams (stripOuterBraces t.fullText)) := by
  rw [(parsePage_templatesOK title content t ht).2]
  exact extractTemplateParameters_eq_spec t.fullText

/-- Witness for the amended C6 theorem at a concrete parsed template. -/
theorem c6_parameters_amended_witness :
    (⟨"Tmpl", "\x7b\x7bTmpl|a=b|c\n\x7d\x7d",
        [("1", "Tmpl"), ("a", "b"), ("3", "c")], 0, 1⟩ : PageTemplate).parameters =
      paramsSpecAmended (splitTemplateParams
        (stripOuterBraces "\x7b\x7bTmpl|a=b|c\n\x7d\x7d")) :=
  c6_parameters_amended "" "\x7b\x7bTmpl|a=b|c\n\x7d\x7d" _ (by decide)

/-- Claim C7: every template emitted by `parsePage` has a `fullText` that
the brace matcher again reports as complete — immediate from the emission
guard, which checks exactly that text. -/
theorem c7_brace_idempotence (title content : String) (t : PageTemplate)
    (ht : t ∈ (parsePage title content).templates) :
    isTemplateComplete t.fullText = true :=
  (parsePage_templatesOK title content t ht).1

/-- Witness for C7 at a concrete parsed template. -/
theorem c7_brace_idempotence_witness :
    isTemplateComplete "\x7b\x7bInfobox|\n|name=Foo|2=bar\x7d\x7d" = true :=
  c7_brace_idempotence "" "\x7b\x7bInfobox|\n|name=Foo|2=bar\x7d\x7d"
    ⟨"Infobox", "\x7b\x7bInfobox|\n|name=Foo|2=bar\x7d\x7d",
      [("1", "Infobox"), ("name", "Foo"), ("2", "bar")], 0, 1⟩ (by decide)

theorem listStarts_iff : ∀ (p cs : List Char), listStarts p cs = true ↔ p <+: cs := by
  intro p
  induction p with
  | nil => intro cs; simp [listStarts, List.nil_prefix]
  | cons a p ih =>
    intro cs
    cases cs with
    | nil => simp [listStarts, List.prefix_nil]
    | cons b cs =>
      simp [listStarts, List.cons_prefix_cons, ih, Bool.and_eq_true,
        decide_eq_true_eq]

theorem listHas_iff : ∀ (needle hay : List Char),
    listHas needle hay = true ↔ needle <:+: hay := by
  intro needle hay
  induction hay with
  | nil => simp [listHas, listStarts_iff, List.prefix_nil, List.infix_nil]
  | cons c cs ih =>
    simp [listHas, Bool.or_eq_true, listStarts_iff, ih, List.infix_cons_iff]

theorem jsIncludes_iff (s sub : String) :
    jsIncludes s sub = true ↔ sub.toList <:+: s.toList :=
  listHas_iff sub.toList s.toList

/-- Claim C8: `findTemplatesByName` returns exactly the templates whose
lower-cased name contains the lower-cased query as a substring; when nothing
matches it returns the empty list, and `getContentByTitle` returns the empty
string when no section satisfies the heading-match predicate.  Both are
total functions, so no error can be raised. -/
theorem c8_query_layer (s : PageStructure) (q : String) :
    (∀ t, t ∈ findTemplatesByName s q ↔
      t ∈ s.templates ∧ (jsToLower q).toList <:+: (jsToLower t.name).toList) ∧
    ((∀ t ∈ s.templates, ¬ (jsToLower q).toList <:+: (jsToLower t.name).toList) →
      findTemplatesByName s q = []) ∧
    ((∀ sec ∈ s.sections, sectionMatchesTitle q sec = false) →
      getContentByTitle s q = "") := by
  refine ⟨?_, ?_, ?_⟩
  · intro t
    unfold findTemplatesByName
    rw [List.mem_filter, jsIncludes_iff]
  · intro hnone
    unfold findTemplatesByName
    rw [List.filter_eq_nil_iff]
    intro t ht
    rw [jsIncludes_iff]
    exact hnone t ht
  · intro hnone
    unfold getContentByTitle
    have hidx : s.sections.findIdx? (sectionMatchesTitle q) = none := by
      rw [List.findIdx?_eq_none_iff]
      exact hnone
    rw [hidx]

/-- Witness for C8 at a concrete structure and a query matching nothing. -/
theorem c8_query_layer_witness :
    findTemplatesByName (parsePage "" "hello") "zzz" = [] ∧
    getContentByTitle (parsePage "" "hello") "zzz" = "" :=
  ⟨(c8_query_layer (parsePage "" "hello") "zzz").2.1 (by decide),
   (c8_query_layer (parsePage "" "hello") "zzz").2.2 (by decide)⟩

/-- Claim C10: `parsePage` is a pure function of its two string arguments
(the source reads no clock, randomness or global state), so equal inputs
give structurally equal `PageStructure` values. -/
theorem c10_deterministic (t1 c1 t2 c2 : String) (ht : t1 = t2)
    (hc : c1 = c2) : parsePage t1 c1 = parsePage t2 c2 := by
  rw [ht, hc]

/-- Witness for C10 at a concrete input pair. -/
theorem c10_deterministic_witness :
    parsePage "p" "x\ny" = parsePage "p" "x\ny" :=
  c10_deterministic "p" "x\ny" "p" "x\ny" rfl rfl
